import Mathlib

/-!
Verification of the asynchronous task-lifecycle engine of the SEO Head
Checker (`views.py`).  The Django cache is embedded as a map from task
identifiers to a task record paired with the timeout (in seconds) that the
last write installed; the local file system is a map from paths to file
contents.  The four HTTP-facing operations (`start_sitemap_processing`,
the background `process_task` closure, `get_task_status`,
`download_task_file`) are translated statement by statement from the
source.  External collaborators (`json.loads`, `normalize_url`,
`fetch_sitemap_urls`, `process_sitemap_urls`, `save_results_to_csv`) are
parameters: their outcomes are inputs of the embedded functions.
-/

namespace SEO

/-- The `status` values the source ever stores. -/
inductive TaskStatus where
  | pending
  | processing
  | completed
  | error
deriving DecidableEq, Repr

/-- One cached task dictionary.  Every dictionary the source stores has a
`status` key; `progress`, `file` and `error` are present in some writes and
absent in others, hence `Option`. -/
structure TaskRecord where
  status : TaskStatus
  progress : Option Nat
  file : Option String
  error : Option String
deriving DecidableEq, Repr

/-- The Django cache: task id to (record, timeout installed by the last
`cache.set`).  `none` means absent (never written, deleted, or expired). -/
abbrev Store := String → Option (TaskRecord × Nat)

/-- The server's local file system: path to file contents. -/
abbrev FS := String → Option String

/-- Joint state: cache plus file system. -/
structure Sys where
  store : Store
  fs : FS

def initStore : Store := fun _ => none

def initSys : Sys := ⟨initStore, fun _ => none⟩

/-- `cache.set(id, r, timeout=ttl)`: replaces the whole value at `id`. -/
def cacheSet (s : Store) (id : String) (r : TaskRecord) (ttl : Nat) : Store :=
  fun k => if k = id then some (r, ttl) else s k

/-- `cache.get(id)`. -/
def cacheGet (s : Store) (id : String) : Option TaskRecord :=
  (s id).map Prod.fst

/-- `cache.delete(id)`. -/
def cacheDelete (s : Store) (id : String) : Store :=
  fun k => if k = id then none else s k

/-- Creating/overwriting a file on disk. -/
def fsWrite (fs : FS) (p c : String) : FS :=
  fun q => if q = p then some c else fs q

/-- `os.remove(p)`. -/
def fsRemove (fs : FS) (p : String) : FS :=
  fun q => if q = p then none else fs q

/-- `os.path.basename`: the component after the last slash. -/
def basename (p : String) : String :=
  (p.splitOn "/").getLastD ""

/-- The responses the three endpoints produce. -/
inductive HttpResp where
  | jsonTask (task : TaskRecord)
  | jsonTaskId (task_id : String) (code : Nat)
  | jsonError (msg : String) (code : Nat)
  | fileAttachment (content : String) (filename : String)
deriving DecidableEq, Repr

/-- `get_task_status` (views.py:117-138): reads the cache, 404 when the
record is absent, otherwise echoes the record; no mutation. -/
def get_task_status (s : Sys) (task_id : String) : HttpResp × Sys :=
  match cacheGet s.store task_id with
  | none => (.jsonError "Task not found" 404, s)
  | some task => (.jsonTask task, s)

/-- `download_task_file` (views.py:141-187): 404 unless the record exists
with status completed; 404 if the `file` entry is falsy or the path does
not exist; otherwise stream the file, remove it from disk and delete the
cache entry before returning the response. -/
def download_task_file (s : Sys) (task_id : String) : HttpResp × Sys :=
  match cacheGet s.store task_id with
  | none => (.jsonError "File not ready or task not found" 404, s)
  | some task =>
    if task.status = TaskStatus.completed then
      match task.file with
      | none => (.jsonError "File not found" 404, s)
      | some file_path =>
        if file_path = "" then (.jsonError "File not found" 404, s)
        else
          match s.fs file_path with
          | none => (.jsonError "File not found" 404, s)
          | some content =>
              (.fileAttachment content (basename file_path),
               ⟨cacheDelete s.store task_id, fsRemove s.fs file_path⟩)
    else (.jsonError "File not ready or task not found" 404, s)

/-- A submission request: the HTTP method, and the outcome of
`json.loads(request.body)` projected to its `sitemap_url` key (`Except`
for a `json.loads` failure, inner `Option` for a missing key). -/
structure Submission where
  method : String
  body_sitemap_url : Except String (Option String)

/-- The record written at creation: `{"status": "pending", "progress": 0}`. -/
def pendingRecord : TaskRecord := ⟨.pending, some 0, none, none⟩

/-- `{"status": "completed", "file": file_path}`. -/
def completedRecord (file_path : String) : TaskRecord :=
  ⟨.completed, none, some file_path, none⟩

/-- `{"status": "error", "error": str(e)}`. -/
def errorRecord (msg : String) : TaskRecord :=
  ⟨.error, none, none, some msg⟩

/-- `start_sitemap_processing` (views.py:57-114).  `normalize_url` is the
external normalizer; `task_id` is the value of `str(uuid.uuid4())`.
Returns the response, the cache after the handler ran, and the list of
background jobs submitted to the thread pool (task id, sitemap url). -/
def start_sitemap_processing (normalize_url : Option String → Except String String)
    (req : Submission) (task_id : String) (store : Store) :
    HttpResp × Store × List (String × String) :=
  if req.method = "POST" then
    match req.body_sitemap_url with
    | .error e => (.jsonError e 400, store, [])
    | .ok raw =>
      match normalize_url raw with
      | .error e => (.jsonError e 400, store, [])
      | .ok sitemap_url =>
          (.jsonTaskId task_id 202,
           cacheSet store task_id pendingRecord 1800,
           [(task_id, sitemap_url)])
  else (.jsonError "Invalid request method" 405, store, [])

/-- Outcomes of the three external pipeline steps for one worker run:
`fetch_sitemap_urls`, `process_sitemap_urls` (plus the progress values it
reports while running), `save_results_to_csv`. -/
structure WorkerEnv where
  fetchResult : Except String (List String)
  progressUpdates : List Nat
  processResult : Except String (List String)
  saveResult : Except String String

/-- Modelled from the spec: `process_sitemap_urls` (URLProcessor, not under
src/) periodically writes `{status: processing, progress: p}` for its task
through the store update contract, refreshing the 1800 s expiry. -/
def progressWrite (store : Store) (task_id : String) (p : Nat) : Store :=
  cacheSet store task_id ⟨.processing, some p, none, none⟩ 1800

/-- The cache after `process_sitemap_urls` reported the given progress
values in order. -/
def applyProgress (store : Store) (task_id : String) (ps : List Nat) : Store :=
  ps.foldl (fun st p => progressWrite st task_id p) store

/-- The `finally` block's `del urls, results`: deleting a name that was
never bound (because the step that binds it raised) raises
`UnboundLocalError`; `del` handles its targets left to right. -/
def delCleanup (urls_bound results_bound : Bool) : Except String Unit :=
  if urls_bound then
    if results_bound then Except.ok ()
    else Except.error "UnboundLocalError: results"
  else Except.error "UnboundLocalError: urls"

/-- Result of one background worker run: the state it leaves behind, and
what escaped `process_task` into the executor's future (which nobody ever
reads). -/
structure WorkerOut where
  sys : Sys
  threadResult : Except String Unit

/-- Modelled from the spec: ResultWriter (not under src/) serializes the
result records into the artifact file's contents. -/
def serializeResults (results : List String) : String :=
  String.intercalate "\n" results

/-- The `process_task` closure (views.py:79-102): run fetch, process, save
in order; on success `cache.set` the completed record, on any failure
`cache.set` the error record with `str(e)`; the `finally` block then runs
`del urls, results` followed by `gc.collect()`.  The artifact write is the
(spec-modelled) effect of a successful `save_results_to_csv`. -/
def process_task (env : WorkerEnv) (task_id : String) (s : Sys) : WorkerOut :=
  match env.fetchResult with
  | .error e =>
      { sys := ⟨cacheSet s.store task_id (errorRecord e) 1800, s.fs⟩,
        threadResult := delCleanup false false }
  | .ok _urls =>
      let store1 := applyProgress s.store task_id env.progressUpdates
      match env.processResult with
      | .error e =>
          { sys := ⟨cacheSet store1 task_id (errorRecord e) 1800, s.fs⟩,
            threadResult := delCleanup true false }
      | .ok results =>
          match env.saveResult with
          | .error e =>
              { sys := ⟨cacheSet store1 task_id (errorRecord e) 1800, s.fs⟩,
                threadResult := delCleanup true true }
          | .ok file_path =>
              { sys := ⟨cacheSet store1 task_id (completedRecord file_path) 1800,
                        fsWrite s.fs file_path (serializeResults results)⟩,
                threadResult := delCleanup true true }

/-- The message of the first pipeline step that fails, if any, in the order
the source runs them. -/
def workerFailed (env : WorkerEnv) : Option String :=
  match env.fetchResult with
  | .error e => some e
  | .ok _ =>
    match env.processResult with
    | .error e => some e
    | .ok _ =>
      match env.saveResult with
      | .error e => some e
      | .ok _ => none

/-- A whole submission followed by the scheduled worker run (if one was
scheduled): the submitter's response is fixed before the worker runs. -/
structure FlowOut where
  response : HttpResp
  sys : Sys
  threadResult : Option (Except String Unit)

def full_flow (normalize_url : Option String → Except String String)
    (req : Submission) (task_id : String) (env : WorkerEnv) (s : Sys) : FlowOut :=
  match start_sitemap_processing normalize_url req task_id s.store with
  | (resp, store1, scheduled) =>
    match scheduled with
    | [] => ⟨resp, ⟨store1, s.fs⟩, none⟩
    | _ :: _ =>
        let out := process_task env task_id ⟨store1, s.fs⟩
        ⟨resp, out.sys, some out.threadResult⟩

/-- A partial task state, as named by the spec's `update(id, partialState,
ttl)` contract: `some` fields are the ones the write names. -/
structure StorePatch where
  status : Option TaskStatus
  progress : Option Nat
  file : Option String
  error : Option String

/-- Merging a partial state into an existing record: named fields replace,
unnamed fields stay intact. -/
def mergeRecord (r : TaskRecord) (p : StorePatch) : TaskRecord :=
  ⟨p.status.getD r.status,
   match p.progress with | some v => some v | none => r.progress,
   match p.file with | some v => some v | none => r.file,
   match p.error with | some v => some v | none => r.error⟩

/-- The TaskStore `update` contract exactly as the spec words it (§4.1):
merge the named fields into the existing record and refresh its expiry;
fail with `NotFound` if the record is absent.  Written from the spec, to be
compared with the terminal `cache.set` writes of the source. -/
def specUpdate (store : Store) (id : String) (p : StorePatch) (ttl : Nat) :
    Except String Store :=
  match store id with
  | none => .error "NotFound"
  | some (r, _) => .ok (cacheSet store id (mergeRecord r p) ttl)

/-- The partial state of the completed terminal write. -/
def completedPatch (fp : String) : StorePatch := ⟨some .completed, none, some fp, none⟩

/-- Helper: a `cache.set` is visible at its own key. -/
lemma cacheSet_self (st : Store) (id : String) (r : TaskRecord) (n : Nat) :
    cacheSet st id r n id = some (r, n) := by
  simp [cacheSet]

/-- Helper: a `cache.set` leaves other keys alone. -/
lemma cacheSet_other (st : Store) (id k : String) (r : TaskRecord) (n : Nat)
    (h : k ≠ id) : cacheSet st id r n k = st k := by
  simp [cacheSet, h]

/-- Helper: `get_task_status` returns the state it was given. -/
lemma get_task_status_snd (s : Sys) (t : String) : (get_task_status s t).2 = s := by
  unfold get_task_status
  cases cacheGet s.store t <;> rfl

/-- C10: a non-POST request to the submission endpoint gets a 405 response
with body `Invalid request method`, the cache is untouched and no
background job is scheduled. -/
theorem C10_non_post_rejected (normalize_url : Option String → Except String String)
    (req : Submission) (task_id : String) (store : Store)
    (h : req.method ≠ "POST") :
    start_sitemap_processing normalize_url req task_id store =
      (.jsonError "Invalid request method" 405, store, []) := by
  unfold start_sitemap_processing
  rw [if_neg h]

/-- Witness for C10 at a concrete GET request. -/
theorem C10_non_post_rejected_witness :
    start_sitemap_processing (fun _ => .error "bad") ⟨"GET", .ok none⟩ "t" initStore =
      (.jsonError "Invalid request method" 405, initStore, []) :=
  C10_non_post_rejected (fun _ => .error "bad") ⟨"GET", .ok none⟩ "t" initStore
    (by decide)

/-- C9: the status query mutates nothing — the state after
`get_task_status` is exactly the state before it, for every task id. -/
theorem C9_status_query_pure (s : Sys) (t : String) :
    (get_task_status s t).2 = s := by
  unfold get_task_status
  cases cacheGet s.store t <;> rfl

/-- C5: a status query on an absent record returns 404, a download on an
absent record returns 404, and a download also returns 404 when the record
is not completed, when its `file` entry is absent or falsy, and when the
referenced path is missing from the file system. -/
theorem C5_not_found_paths (s : Sys) (t : String) :
    (s.store t = none →
      (get_task_status s t).1 = .jsonError "Task not found" 404 ∧
      (download_task_file s t).1 = .jsonError "File not ready or task not found" 404) ∧
    (∀ r ttl, s.store t = some (r, ttl) → r.status ≠ .completed →
      (download_task_file s t).1 = .jsonError "File not ready or task not found" 404) ∧
    (∀ r ttl, s.store t = some (r, ttl) → r.status = .completed → r.file = none →
      (download_task_file s t).1 = .jsonError "File not found" 404) ∧
    (∀ r ttl fp, s.store t = some (r, ttl) → r.status = .completed →
      r.file = some fp → fp ≠ "" → s.fs fp = none →
      (download_task_file s t).1 = .jsonError "File not found" 404) := by
  refine ⟨fun h => ?_, fun r ttl h hst => ?_, fun r ttl h hst hf => ?_,
    fun r ttl fp h hst hf hfp hfs => ?_⟩
  · constructor
    · unfold get_task_status
      simp [cacheGet, h]
    · unfold download_task_file
      simp [cacheGet, h]
  · unfold download_task_file
    simp [cacheGet, h, hst]
  · unfold download_task_file
    simp [cacheGet, h, hst, hf]
  · unfold download_task_file
    simp [cacheGet, h, hst, hf, hfp, hfs]

/-- Witness for C5 on the empty store. -/
theorem C5_not_found_paths_witness :
    (get_task_status initSys "t").1 = .jsonError "Task not found" 404 ∧
    (download_task_file initSys "t").1 =
      .jsonError "File not ready or task not found" 404 :=
  (C5_not_found_paths initSys "t").1 rfl

/-- C6: a valid POST submission returns the freshly generated task id with
a 202 response, schedules the processing job, and leaves the cache record
for the new id exactly `{status: pending, progress: 0}` with timeout
1800 s, touching no other key. -/
theorem C6_submission_creates_pending
    (normalize_url : Option String → Except String String)
    (req : Submission) (task_id : String) (store : Store) (raw : Option String)
    (u : String)
    (hm : req.method = "POST") (hb : req.body_sitemap_url = .ok raw)
    (hn : normalize_url raw = .ok u) (hfresh : store task_id = none) :
    start_sitemap_processing normalize_url req task_id store =
      (.jsonTaskId task_id 202, cacheSet store task_id pendingRecord 1800,
        [(task_id, u)]) ∧
    cacheSet store task_id pendingRecord 1800 task_id =
      some (⟨.pending, some 0, none, none⟩, 1800) ∧
    (∀ k, k ≠ task_id → cacheSet store task_id pendingRecord 1800 k = store k) := by
  refine ⟨?_, cacheSet_self _ _ _ _, fun k hk => cacheSet_other _ _ _ _ _ hk⟩
  unfold start_sitemap_processing
  rw [if_pos hm, hb]
  simp [hn]

/-- Witness for C6 at a concrete valid submission. -/
theorem C6_submission_creates_pending_witness :
    start_sitemap_processing (fun _ => .ok "https://e.com/s.xml")
        ⟨"POST", .ok (some "e.com/s.xml")⟩ "t" initStore =
      (.jsonTaskId "t" 202, cacheSet initStore "t" pendingRecord 1800,
        [("t", "https://e.com/s.xml")]) :=
  (C6_submission_creates_pending (fun _ => .ok "https://e.com/s.xml")
    ⟨"POST", .ok (some "e.com/s.xml")⟩ "t" initStore (some "e.com/s.xml")
    "https://e.com/s.xml" rfl rfl rfl rfl).1

/-- C7: when normalization fails, the submission returns the 400 validation
error, leaves the cache untouched and schedules nothing; when it succeeds,
exactly one background job is scheduled. -/
theorem C7_validation_gates_scheduling
    (normalize_url : Option String → Except String String)
    (req : Submission) (task_id : String) (store : Store) (raw : Option String)
    (hm : req.method = "POST") (hb : req.body_sitemap_url = .ok raw) :
    match normalize_url raw with
    | .error e =>
        start_sitemap_processing normalize_url req task_id store =
          (.jsonError e 400, store, [])
    | .ok u =>
        (start_sitemap_processing normalize_url req task_id store).2.2 =
          [(task_id, u)] := by
  unfold start_sitemap_processing
  rw [if_pos hm, hb]
  cases hn : normalize_url raw <;> simp [hn]

/-- Helper: a download of an id that is absent from the cache responds 404
and leaves the state untouched. -/
lemma download_absent (s : Sys) (t : String) (h : s.store t = none) :
    download_task_file s t =
      (.jsonError "File not ready or task not found" 404, s) := by
  unfold download_task_file
  simp [cacheGet, h]

/-- The state after `n` further download calls for the same id. -/
def downloadIter (t : String) : Nat → Sys → Sys
  | 0, s => s
  | n + 1, s => (download_task_file (downloadIter t n s) t).2

/-- Helper: repeated downloads of an absent id never change the state. -/
lemma downloadIter_absent (t : String) (s : Sys) (h : s.store t = none) :
    ∀ n, downloadIter t n s = s := by
  intro n
  induction n with
  | zero => rfl
  | succ n ih =>
      unfold downloadIter
      rw [ih, download_absent s t h]

/-- C1: downloading a completed task whose artifact exists streams the
file's contents, and deletes both the cache record and the artifact before
the response is returned; afterwards every further download of the same id
responds 404 and the artifact stays absent from storage. -/
theorem C1_download_one_shot (s : Sys) (t fp content : String)
    (r : TaskRecord) (ttl : Nat)
    (hr : s.store t = some (r, ttl)) (hst : r.status = .completed)
    (hf : r.file = some fp) (hfp : fp ≠ "") (hc : s.fs fp = some content) :
    (download_task_file s t).1 = .fileAttachment content (basename fp) ∧
    (download_task_file s t).2.store t = none ∧
    (download_task_file s t).2.fs fp = none ∧
    (∀ n, (download_task_file (downloadIter t n (download_task_file s t).2) t).1 =
            .jsonError "File not ready or task not found" 404 ∧
          (downloadIter t n (download_task_file s t).2).fs fp = none) := by
  have hdl : download_task_file s t =
      (.fileAttachment content (basename fp),
       ⟨cacheDelete s.store t, fsRemove s.fs fp⟩) := by
    unfold download_task_file
    simp [cacheGet, hr, hst, hf, hfp, hc]
  have hstore : (⟨cacheDelete s.store t, fsRemove s.fs fp⟩ : Sys).store t = none := by
    simp [cacheDelete]
  refine ⟨by rw [hdl], by rw [hdl]; exact hstore, by rw [hdl]; simp [fsRemove], ?_⟩
  intro n
  rw [hdl]
  rw [downloadIter_absent t _ hstore n]
  constructor
  · rw [download_absent _ t hstore]
  · simp [fsRemove]

/-- Witness for C1 on a concrete completed task whose artifact exists. -/
theorem C1_download_one_shot_witness :
    (download_task_file
        ⟨cacheSet initStore "t" (completedRecord "tmp/t.csv") 1800,
         fsWrite (fun _ => none) "tmp/t.csv" "rows"⟩ "t").1 =
      .fileAttachment "rows" (basename "tmp/t.csv") :=
  (C1_download_one_shot
    ⟨cacheSet initStore "t" (completedRecord "tmp/t.csv") 1800,
     fsWrite (fun _ => none) "tmp/t.csv" "rows"⟩
    "t" "tmp/t.csv" "rows" (completedRecord "tmp/t.csv") 1800
    (by simp [cacheSet]) rfl rfl (by decide) (by simp [fsWrite])).1

/-- Witness for C7 at a concrete failing normalization. -/
theorem C7_validation_gates_scheduling_witness :
    start_sitemap_processing (fun _ => .error "Invalid URL")
        ⟨"POST", .ok (some "::bad::")⟩ "t" initStore =
      (.jsonError "Invalid URL" 400, initStore, []) :=
  C7_validation_gates_scheduling (fun _ => .error "Invalid URL")
    ⟨"POST", .ok (some "::bad::")⟩ "t" initStore (some "::bad::") rfl rfl

/-- Helper: `process_sitemap_urls`'s progress writes touch only their own
task's key. -/
lemma applyProgress_other (t k : String) (h : k ≠ t) :
    ∀ (ps : List Nat) (st : Store), applyProgress st t ps k = st k := by
  intro ps
  induction ps with
  | nil => intro st; rfl
  | cons p ps ih =>
      intro st
      have := ih (progressWrite st t p)
      simpa [applyProgress, progressWrite, cacheSet, h] using this

/-- Helper: a pipeline run whose first failure carries message `m` leaves
`{status: error, error: m}` with timeout 1800 at its task's key. -/
lemma process_task_store_failed (env : WorkerEnv) (t : String) (s : Sys)
    (m : String) (h : workerFailed env = some m) :
    (process_task env t s).sys.store t = some (errorRecord m, 1800) := by
  unfold workerFailed at h
  unfold process_task
  cases hf : env.fetchResult with
  | error e => rw [hf] at h; cases h; exact cacheSet_self _ _ _ _
  | ok urls =>
      rw [hf] at h
      cases hp : env.processResult with
      | error e => rw [hp] at h; cases h; exact cacheSet_self _ _ _ _
      | ok results =>
          rw [hp] at h
          cases hs : env.saveResult with
          | error e => rw [hs] at h; cases h; exact cacheSet_self _ _ _ _
          | ok fp => rw [hs] at h; cases h

/-- Helper: a pipeline run with no failure whose writer returned `fp`
leaves `{status: completed, file: fp}` with timeout 1800 at its key. -/
lemma process_task_store_completed (env : WorkerEnv) (t : String) (s : Sys)
    (fp : String) (h : workerFailed env = none) (hs : env.saveResult = .ok fp) :
    (process_task env t s).sys.store t = some (completedRecord fp, 1800) := by
  unfold workerFailed at h
  unfold process_task
  cases hf : env.fetchResult with
  | error e => rw [hf] at h; cases h
  | ok urls =>
      rw [hf] at h
      cases hp : env.processResult with
      | error e => rw [hp] at h; cases h
      | ok results =>
          rw [hs]
          exact cacheSet_self _ _ _ _

/-- Helper: a worker run touches no cache key other than its own task's. -/
lemma process_task_store_other (env : WorkerEnv) (t : String) (s : Sys)
    (k : String) (h : k ≠ t) :
    (process_task env t s).sys.store k = s.store k := by
  unfold process_task
  cases env.fetchResult with
  | error e => exact cacheSet_other _ _ _ _ _ h
  | ok urls =>
      cases env.processResult with
      | error e =>
          exact (cacheSet_other _ _ _ _ _ h).trans (applyProgress_other t k h _ _)
      | ok results =>
          cases env.saveResult with
          | error e =>
              exact (cacheSet_other _ _ _ _ _ h).trans (applyProgress_other t k h _ _)
          | ok fp =>
              exact (cacheSet_other _ _ _ _ _ h).trans (applyProgress_other t k h _ _)

/-- The cache before the C2 counterexample's terminal write: the task is
mid-processing with progress 50. -/
def store50 : Store := cacheSet initStore "t" ⟨.processing, some 50, none, none⟩ 1800

/-- A worker run in which all three steps succeed. -/
def envAllOk : WorkerEnv := ⟨.ok [], [], .ok [], .ok "tmp/t.csv"⟩

/-- C2 counterexample: the source's terminal `cache.set` drops the existing
`progress` field (the spec's merge would keep it at 50), and on an absent
record it creates one where the spec's `update` contract fails with
`NotFound`. -/
theorem C2_counterexample_set_is_not_update :
    ((process_task envAllOk "t" ⟨store50, fun _ => none⟩).sys.store "t").map
        (fun rt => rt.1.progress) = some none ∧
    (match specUpdate store50 "t" (completedPatch "tmp/t.csv") 1800 with
     | .ok st => (st "t").map (fun rt => rt.1.progress)
     | .error _ => none) = some (some 50) ∧
    (process_task envAllOk "t" initSys).sys.store "t" =
        some (completedRecord "tmp/t.csv", 1800) ∧
    specUpdate initStore "t" (completedPatch "tmp/t.csv") 1800 =
        .error "NotFound" := by
  refine ⟨rfl, ?_, rfl, rfl⟩
  rfl

/-- C2 (amended): the pipeline's terminal writes replace the task's record
wholesale with exactly the named fields (dropping unnamed fields such as
`progress`), install a fresh 1800 s timeout, create the record when it is
absent rather than failing, and touch no other key. -/
theorem C2_amended_terminal_writes_replace (env : WorkerEnv) (t : String)
    (s : Sys) :
    (∀ fp, workerFailed env = none → env.saveResult = .ok fp →
        (process_task env t s).sys.store t = some (completedRecord fp, 1800)) ∧
    (∀ m, workerFailed env = some m →
        (process_task env t s).sys.store t = some (errorRecord m, 1800)) ∧
    (∀ k, k ≠ t → (process_task env t s).sys.store k = s.store k) :=
  ⟨fun fp h hs => process_task_store_completed env t s fp h hs,
   fun m h => process_task_store_failed env t s m h,
   fun k h => process_task_store_other env t s k h⟩

/-- Witness for C2 (amended): a completed run over an absent record still
produces the full completed record. -/
theorem C2_amended_terminal_writes_replace_witness :
    (process_task envAllOk "t" initSys).sys.store "t" =
      some (completedRecord "tmp/t.csv", 1800) :=
  (C2_amended_terminal_writes_replace envAllOk "t" initSys).1 "tmp/t.csv" rfl rfl

/-- A worker run whose first step raises an exception whose `str` is empty
(as for `raise Exception()`). -/
def envEmptyMsg : WorkerEnv := ⟨.error "", [], .ok [], .ok "tmp/t.csv"⟩

/-- The claim's consequent at one task: the stored record has status error
and a non-empty message. -/
def recordErrorNonEmpty (s : Sys) (t : String) : Prop :=
  ∃ r ttl, s.store t = some (r, ttl) ∧ r.status = .error ∧
    ∃ m, r.error = some m ∧ m ≠ ""

/-- C3 counterexample: a failing pipeline run whose exception renders to
the empty string ends with an empty stored message, so the stored record
does not carry a non-empty message. -/
theorem C3_counterexample_empty_message :
    (workerFailed envEmptyMsg).isSome = true ∧
    ¬ recordErrorNonEmpty (process_task envEmptyMsg "t" initSys).sys "t" := by
  refine ⟨rfl, ?_⟩
  rintro ⟨r, ttl, hr, hst, m, hm, hne⟩
  have h0 : (process_task envEmptyMsg "t" initSys).sys.store "t" =
      some (errorRecord "", 1800) := rfl
  rw [h0] at hr
  have h1 : errorRecord "" = r := congrArg Prod.fst (Option.some.inj hr)
  subst h1
  exact hne (Option.some.inj hm).symm

/-- Helper: the submitter's response is fixed before the worker runs, so it
does not depend on the pipeline's outcome. -/
lemma full_flow_response_indep (normalize_url : Option String → Except String String)
    (req : Submission) (task_id : String) (s : Sys) (env env2 : WorkerEnv) :
    (full_flow normalize_url req task_id env s).response =
      (full_flow normalize_url req task_id env2 s).response := by
  cases hsch : (start_sitemap_processing normalize_url req task_id s.store).2.2 <;>
    simp [full_flow, hsch]

/-- C3 (amended): a pipeline run any of whose three steps fails updates the
task's record to status error with exactly the failure's rendered message
(non-empty whenever that rendering is), and the failure is never raised
back to the submitter: the submission response is independent of the
pipeline outcome. -/
theorem C3_failure_ends_in_error_state (env : WorkerEnv) (t : String) (s : Sys)
    (m : String) (h : workerFailed env = some m) :
    (process_task env t s).sys.store t = some (errorRecord m, 1800) ∧
    (errorRecord m).status = .error ∧
    (errorRecord m).error = some m ∧
    (m ≠ "" → recordErrorNonEmpty (process_task env t s).sys t) ∧
    (∀ normalize_url req task_id s0 env2,
        (full_flow normalize_url req task_id env s0).response =
          (full_flow normalize_url req task_id env2 s0).response) := by
  refine ⟨process_task_store_failed env t s m h, rfl, rfl, fun hne => ?_,
    fun nu req tid s0 env2 => full_flow_response_indep nu req tid s0 env env2⟩
  exact ⟨errorRecord m, 1800, process_task_store_failed env t s m h, rfl, m, rfl, hne⟩

/-- Witness for C3 (amended) on a concrete unreachable-sitemap run. -/
theorem C3_failure_ends_in_error_state_witness :
    (process_task ⟨.error "sitemap unreachable", [], .ok [], .ok "f"⟩ "t"
        initSys).sys.store "t" =
      some (errorRecord "sitemap unreachable", 1800) :=
  (C3_failure_ends_in_error_state ⟨.error "sitemap unreachable", [], .ok [], .ok "f"⟩
    "t" initSys "sitemap unreachable" rfl).1

/-- Rank of a status in the lifecycle order `pending → processing →
{completed | error}`. -/
def statusRank : TaskStatus → Nat
  | .pending => 0
  | .processing => 1
  | .completed => 2
  | .error => 2

/-- Whether a status is terminal. -/
def isTerminal : TaskStatus → Bool
  | .completed => true
  | .error => true
  | .pending => false
  | .processing => false

/-- The store-affecting operations of the system, one per cache call site
in the source (the submission's create, the worker's progress and terminal
writes, the status query, the download purge) plus TTL expiry of a key. -/
inductive SysOp where
  | submitCreate (task_id : String)
  | workerProgress (task_id : String) (p : Nat)
  | workerCompleted (task_id : String) (file_path : String)
  | workerError (task_id : String) (msg : String)
  | statusQuery (task_id : String)
  | download (task_id : String)
  | expire (task_id : String)
deriving DecidableEq, Repr

/-- State effect of each operation, taken from the code path it names. -/
def applyOp (s : Sys) : SysOp → Sys
  | .submitCreate t => ⟨cacheSet s.store t pendingRecord 1800, s.fs⟩
  | .workerProgress t p => ⟨progressWrite s.store t p, s.fs⟩
  | .workerCompleted t fp => ⟨cacheSet s.store t (completedRecord fp) 1800, s.fs⟩
  | .workerError t m => ⟨cacheSet s.store t (errorRecord m) 1800, s.fs⟩
  | .statusQuery t => (get_task_status s t).2
  | .download t => (download_task_file s t).2
  | .expire t => ⟨cacheDelete s.store t, s.fs⟩

/-- The cache writes one worker run performs on its task, in source order:
the progress writes of `process_sitemap_urls`, then exactly one terminal
write. -/
def workerOps (env : WorkerEnv) (t : String) : List SysOp :=
  match env.fetchResult with
  | .error e => [.workerError t e]
  | .ok _ =>
      env.progressUpdates.map (fun p => .workerProgress t p) ++
      match env.processResult with
      | .error e => [.workerError t e]
      | .ok _ =>
          match env.saveResult with
          | .error e => [.workerError t e]
          | .ok fp => [.workerCompleted t fp]

/-- Helper: folding the progress ops is `applyProgress`. -/
lemma foldl_progress_ops (t : String) :
    ∀ (ps : List Nat) (s : Sys),
      (ps.map (fun p => SysOp.workerProgress t p)).foldl applyOp s =
        ⟨applyProgress s.store t ps, s.fs⟩ := by
  intro ps
  induction ps with
  | nil => intro s; rfl
  | cons p ps ih =>
      intro s
      rw [List.map_cons, List.foldl_cons]
      exact ih _

/-- Coherence: the direct embedding of `process_task` and its operation
list agree on the cache, so the trace model below runs exactly the writes
the worker performs. -/
lemma process_task_eq_ops (env : WorkerEnv) (t : String) (s : Sys) :
    (process_task env t s).sys.store = ((workerOps env t).foldl applyOp s).store := by
  unfold process_task workerOps
  cases hf : env.fetchResult with
  | error e => rfl
  | ok urls =>
      rw [List.foldl_append, foldl_progress_ops]
      cases hp : env.processResult with
      | error e => rfl
      | ok results =>
          cases hs : env.saveResult with
          | error e => rfl
          | ok fp => rfl

/-- The status an operation writes for task `t`, if any. -/
def opStatusWrite (t : String) : SysOp → Option TaskStatus
  | .submitCreate u => if u = t then some .pending else none
  | .workerProgress u _ => if u = t then some .processing else none
  | .workerCompleted u _ => if u = t then some .completed else none
  | .workerError u _ => if u = t then some .error else none
  | .statusQuery _ => none
  | .download _ => none
  | .expire _ => none

/-- The statuses a trace writes for task `t`, in order. -/
def statusSeq (t : String) (tr : List SysOp) : List TaskStatus :=
  tr.filterMap (opStatusWrite t)

/-- The statuses one worker run writes, derived from `process_task`'s
structure: progress writes (all `processing`), then one terminal status. -/
def workerStatusWrites (env : WorkerEnv) : List TaskStatus :=
  match env.fetchResult with
  | .error _ => [.error]
  | .ok _ =>
      env.progressUpdates.map (fun _ => .processing) ++
      match env.processResult with
      | .error _ => [.error]
      | .ok _ =>
          match env.saveResult with
          | .error _ => [.error]
          | .ok _ => [.completed]

/-- Every status write the system ever performs for a task: the create
(`pending`), then the worker's writes. -/
def taskStatusScript (env : WorkerEnv) : List TaskStatus :=
  .pending :: workerStatusWrites env

/-- Helper: the progress ops write exactly `processing` each. -/
lemma filterMap_progress (t : String) (ps : List Nat) :
    List.filterMap (opStatusWrite t ∘ fun p => SysOp.workerProgress t p) ps =
      List.replicate ps.length TaskStatus.processing := by
  have hf : (opStatusWrite t ∘ fun p : Nat => SysOp.workerProgress t p) =
      fun _ => some TaskStatus.processing := by
    funext p
    simp [opStatusWrite]
  rw [hf]
  induction ps with
  | nil => rfl
  | cons p ps ih => simp [List.filterMap_cons, ih, List.replicate_succ]

/-- Coherence: the status writes of a create followed by a worker run are
exactly the task's status script. -/
lemma workerOps_statusSeq (env : WorkerEnv) (t : String) :
    statusSeq t (SysOp.submitCreate t :: workerOps env t) = taskStatusScript env := by
  unfold statusSeq workerOps taskStatusScript workerStatusWrites
  cases hf : env.fetchResult with
  | error e => simp [List.filterMap_cons, opStatusWrite]
  | ok urls =>
      cases hp : env.processResult with
      | error e =>
          simp [List.filterMap_cons, List.filterMap_append, opStatusWrite]
          exact filterMap_progress t env.progressUpdates
      | ok results =>
          cases hs : env.saveResult with
          | error e =>
              simp [List.filterMap_cons, List.filterMap_append, opStatusWrite]
              exact filterMap_progress t env.progressUpdates
          | ok fp =>
              simp [List.filterMap_cons, List.filterMap_append, opStatusWrite]
              exact filterMap_progress t env.progressUpdates

/-- A trace of the system is valid when, for every task id, the status
writes it contains for that id are a prefix of some run's status script:
the code creates a task exactly once, and its single worker then writes
progress values followed by at most one terminal status, while queries,
downloads and expiries may interleave anywhere. -/
def validTrace (tr : List SysOp) : Prop :=
  ∀ t : String, ∃ (env : WorkerEnv) (n : Nat),
    statusSeq t tr = (taskStatusScript env).take n

/-- The state after the first `i` operations of a trace. -/
def execTrace (tr : List SysOp) (i : Nat) : Sys :=
  (tr.take i).foldl applyOp initSys

/-- The status of task `t`'s record, when present. -/
def statusAt (s : Sys) (t : String) : Option TaskStatus :=
  (s.store t).map (fun rt => rt.1.status)

/-- Helper: a write operation on task `t` leaves `t`'s record with exactly
the status it writes. -/
lemma applyOp_write (t : String) (op : SysOp) (s : Sys) (σ : TaskStatus)
    (h : opStatusWrite t op = some σ) :
    statusAt (applyOp s op) t = some σ := by
  cases op with
  | submitCreate u =>
      rcases eq_or_ne u t with hu | hu
      · subst hu
        simp [opStatusWrite] at h
        subst h
        simp [applyOp, statusAt, cacheSet, pendingRecord]
      · simp [opStatusWrite, hu] at h
  | workerProgress u p =>
      rcases eq_or_ne u t with hu | hu
      · subst hu
        simp [opStatusWrite] at h
        subst h
        simp [applyOp, statusAt, progressWrite, cacheSet]
      · simp [opStatusWrite, hu] at h
  | workerCompleted u fp =>
      rcases eq_or_ne u t with hu | hu
      · subst hu
        simp [opStatusWrite] at h
        subst h
        simp [applyOp, statusAt, cacheSet, completedRecord]
      · simp [opStatusWrite, hu] at h
  | workerError u m =>
      rcases eq_or_ne u t with hu | hu
      · subst hu
        simp [opStatusWrite] at h
        subst h
        simp [applyOp, statusAt, cacheSet, errorRecord]
      · simp [opStatusWrite, hu] at h
  | statusQuery u => simp [opStatusWrite] at h
  | download u => simp [opStatusWrite] at h
  | expire u => simp [opStatusWrite] at h

/-- Helper: a download either leaves the cache alone (any 404 path) or
deletes exactly its task's record. -/
lemma download_store_cases (s : Sys) (u : String) :
    ((download_task_file s u).2).store = s.store ∨
      ((download_task_file s u).2).store = cacheDelete s.store u := by
  unfold download_task_file
  split
  · exact Or.inl rfl
  · split
    · split
      · exact Or.inl rfl
      · split
        · exact Or.inl rfl
        · split
          · exact Or.inl rfl
          · exact Or.inr rfl
    · exact Or.inl rfl

/-- Helper: an operation that writes no status for `t` leaves `t`'s status
unchanged or deletes the record. -/
lemma applyOp_no_write (t : String) (op : SysOp) (s : Sys)
    (h : opStatusWrite t op = none) :
    statusAt (applyOp s op) t = statusAt s t ∨ statusAt (applyOp s op) t = none := by
  cases op with
  | submitCreate u =>
      rcases eq_or_ne u t with hu | hu
      · subst hu; simp [opStatusWrite] at h
      · left
        simp [applyOp, statusAt, cacheSet, Ne.symm hu]
  | workerProgress u p =>
      rcases eq_or_ne u t with hu | hu
      · subst hu; simp [opStatusWrite] at h
      · left
        simp [applyOp, statusAt, progressWrite, cacheSet, Ne.symm hu]
  | workerCompleted u fp =>
      rcases eq_or_ne u t with hu | hu
      · subst hu; simp [opStatusWrite] at h
      · left
        simp [applyOp, statusAt, cacheSet, Ne.symm hu]
  | workerError u m =>
      rcases eq_or_ne u t with hu | hu
      · subst hu; simp [opStatusWrite] at h
      · left
        simp [applyOp, statusAt, cacheSet, Ne.symm hu]
  | statusQuery u =>
      left
      simp [applyOp, get_task_status_snd]
  | download u =>
      rcases download_store_cases s u with hd | hd
      · left
        simp only [applyOp, statusAt]
        rw [hd]
      · rcases eq_or_ne u t with hu | hu
        · subst hu
          right
          simp only [applyOp, statusAt]
          rw [hd]
          simp [cacheDelete]
        · left
          simp only [applyOp, statusAt]
          rw [hd]
          simp [cacheDelete, Ne.symm hu]
  | expire u =>
      rcases eq_or_ne u t with hu | hu
      · subst hu
        right
        simp [applyOp, statusAt, cacheDelete]
      · left
        simp [applyOp, statusAt, cacheDelete, Ne.symm hu]

/-- Invariant: along any trace, whenever task `t`'s record is present its
status is the one installed by the last status write consumed so far. -/
lemma statusAt_execTrace (tr : List SysOp) (t : String) :
    ∀ i, statusAt (execTrace tr i) t = none ∨
      statusAt (execTrace tr i) t = (statusSeq t (tr.take i)).getLast? := by
  intro i
  induction i with
  | zero => left; rfl
  | succ i ih =>
      have hexec : execTrace tr (i + 1) =
          (tr[i]?.toList).foldl applyOp (execTrace tr i) := by
        unfold execTrace
        rw [List.take_succ, List.foldl_append]
      cases hop : tr[i]? with
      | none =>
          rw [hop] at hexec
          have heq : execTrace tr (i + 1) = execTrace tr i := hexec
          have hseq : statusSeq t (tr.take (i + 1)) = statusSeq t (tr.take i) := by
            unfold statusSeq
            rw [List.take_succ, hop]
            simp
          rw [heq, hseq]
          exact ih
      | some op =>
          rw [hop] at hexec
          have hexec2 : execTrace tr (i + 1) = applyOp (execTrace tr i) op := hexec
          cases hw : opStatusWrite t op with
          | some σ =>
              right
              have hseq : statusSeq t (tr.take (i + 1)) =
                  statusSeq t (tr.take i) ++ [σ] := by
                unfold statusSeq
                rw [List.take_succ, hop, List.filterMap_append]
                simp [List.filterMap_cons, hw]
              rw [hexec2, applyOp_write t op _ σ hw, hseq, List.getLast?_concat]
          | none =>
              have hseq : statusSeq t (tr.take (i + 1)) = statusSeq t (tr.take i) := by
                unfold statusSeq
                rw [List.take_succ, hop, List.filterMap_append]
                simp [List.filterMap_cons, hw]
              rcases applyOp_no_write t op (execTrace tr i) hw with h1 | h1
              · rw [hexec2, h1, hseq]
                exact ih
              · left
                rw [hexec2, h1]

/-- Helper: the writes of a trace prefix are a prefix of the trace's
writes. -/
lemma statusSeq_take (t : String) (tr : List SysOp) (i : Nat) :
    ∃ m, statusSeq t (tr.take i) = (statusSeq t tr).take m := by
  have h : statusSeq t tr = statusSeq t (tr.take i) ++ statusSeq t (tr.drop i) := by
    unfold statusSeq
    rw [← List.filterMap_append, List.take_append_drop]
  exact ⟨(statusSeq t (tr.take i)).length, by rw [h, List.take_left]⟩

/-- One lifecycle step forward: the rank does not decrease and the source
status is not terminal. -/
def stepOK (a b : TaskStatus) : Prop :=
  statusRank a ≤ statusRank b ∧ isTerminal a = false

/-- Helper: adjacent positions of a chained list are related. -/
lemma chain_adjacent {α : Type} {R : α → α → Prop} (l : List α)
    (h : List.Chain' R l) (j : Nat) (a b : α)
    (ha : l[j]? = some a) (hb : l[j + 1]? = some b) : R a b := by
  obtain ⟨p1, e1⟩ := List.getElem?_eq_some.mp ha
  obtain ⟨p2, e2⟩ := List.getElem?_eq_some.mp hb
  subst e1
  subst e2
  rw [List.chain'_iff_get] at h
  have hj : j < l.length - 1 := by omega
  simpa [List.get_eq_getElem] using h j hj

/-- Helper: the tail of a script after the first processing write is
chained. -/
lemma chain_proc (term : TaskStatus) (ht : 1 ≤ statusRank term) :
    ∀ ps : List Nat,
      List.Chain' stepOK
        (TaskStatus.processing :: ps.map (fun _ => TaskStatus.processing) ++ [term]) := by
  intro ps
  induction ps with
  | nil =>
      simp [List.chain'_cons, stepOK, statusRank, isTerminal]
      exact ht
  | cons p ps ih =>
      rw [List.map_cons, List.cons_append]
      exact List.chain'_cons.mpr ⟨⟨le_refl _, rfl⟩, ih⟩

/-- Helper: a full script shape is chained. -/
lemma chain_pend (term : TaskStatus) (ht : 1 ≤ statusRank term) (ps : List Nat) :
    List.Chain' stepOK
      (TaskStatus.pending :: ps.map (fun _ => TaskStatus.processing) ++ [term]) := by
  cases ps with
  | nil => simp [List.chain'_cons, stepOK, statusRank, isTerminal]
  | cons p ps =>
      rw [List.map_cons, List.cons_append]
      exact List.chain'_cons.mpr ⟨⟨by simp [statusRank], rfl⟩, chain_proc term ht ps⟩

/-- Helper: every task status script is chained: ranks never decrease and
only its last element can be terminal. -/
lemma chain_script (env : WorkerEnv) : List.Chain' stepOK (taskStatusScript env) := by
  unfold taskStatusScript workerStatusWrites
  cases hf : env.fetchResult with
  | error e => exact chain_pend .error (by decide) []
  | ok urls =>
      cases hp : env.processResult with
      | error e => exact chain_pend .error (by decide) env.progressUpdates
      | ok results =>
          cases hs : env.saveResult with
          | error e => exact chain_pend .error (by decide) env.progressUpdates
          | ok fp => exact chain_pend .completed (by decide) env.progressUpdates

/-- C4: along every valid trace of the system, a task's stored status only
ever moves forward in rank through `pending → processing → terminal`, and
no step ever moves it out of a terminal status: once `completed` or
`error`, the record keeps that status until it is deleted or expires. -/
theorem C4_status_monotone (tr : List SysOp) (hv : validTrace tr) (t : String)
    (i : Nat) (r r2 : TaskRecord) (n n2 : Nat)
    (hi : (execTrace tr i).store t = some (r, n))
    (hj : (execTrace tr (i + 1)).store t = some (r2, n2)) :
    statusRank r.status ≤ statusRank r2.status ∧
      (isTerminal r.status = true → r2.status = r.status) := by
  have si : statusAt (execTrace tr i) t = some r.status := by
    simp [statusAt, hi]
  have sj : statusAt (execTrace tr (i + 1)) t = some r2.status := by
    simp [statusAt, hj]
  have hexec : execTrace tr (i + 1) =
      (tr[i]?.toList).foldl applyOp (execTrace tr i) := by
    unfold execTrace
    rw [List.take_succ, List.foldl_append]
  cases hop : tr[i]? with
  | none =>
      rw [hop] at hexec
      have heq : execTrace tr (i + 1) = execTrace tr i := hexec
      rw [heq, hi] at hj
      have hr : r = r2 := congrArg Prod.fst (Option.some.inj hj)
      subst hr
      exact ⟨le_refl _, fun _ => rfl⟩
  | some op =>
      rw [hop] at hexec
      have hexec2 : execTrace tr (i + 1) = applyOp (execTrace tr i) op := hexec
      cases hw : opStatusWrite t op with
      | none =>
          rcases applyOp_no_write t op (execTrace tr i) hw with h1 | h1
          · rw [hexec2, h1, si] at sj
            have hs : r.status = r2.status := Option.some.inj sj
            exact ⟨hs ▸ le_refl _, fun _ => hs.symm⟩
          · rw [hexec2, h1] at sj
            cases sj
      | some σ =>
          have sjσ : statusAt (execTrace tr (i + 1)) t = some σ := by
            rw [hexec2]
            exact applyOp_write t op _ σ hw
          have hr2 : r2.status = σ := (Option.some.inj (sjσ.symm.trans sj)).symm
          have hseq1 : statusSeq t (tr.take (i + 1)) =
              statusSeq t (tr.take i) ++ [σ] := by
            unfold statusSeq
            rw [List.take_succ, hop, List.filterMap_append]
            simp [List.filterMap_cons, hw]
          have gi : (statusSeq t (tr.take i)).getLast? = some r.status := by
            rcases statusAt_execTrace tr t i with h | h
            · rw [si] at h
              cases h
            · rw [si] at h
              exact h.symm
          obtain ⟨env, nn, hfull⟩ := hv t
          obtain ⟨m1, hm1⟩ := statusSeq_take t tr i
          obtain ⟨m2, hm2⟩ := statusSeq_take t tr (i + 1)
          have hk1 : statusSeq t (tr.take i) = (taskStatusScript env).take (m1 ⊓ nn) := by
            rw [hm1, hfull, List.take_take]
          have hk2 : statusSeq t (tr.take (i + 1)) =
              (taskStatusScript env).take (m2 ⊓ nn) := by
            rw [hm2, hfull, List.take_take]
          have hne : statusSeq t (tr.take i) ≠ [] := by
            intro hh
            rw [hh] at gi
            cases gi
          have hLpos : 0 < (statusSeq t (tr.take i)).length := List.length_pos.mpr hne
          obtain ⟨j, hj⟩ : ∃ j, (statusSeq t (tr.take i)).length = j + 1 :=
            ⟨(statusSeq t (tr.take i)).length - 1, (Nat.succ_pred_eq_of_pos hLpos).symm⟩
          have hgetr : (taskStatusScript env)[j]? = some r.status := by
            have h1 : (statusSeq t (tr.take i))[j]? = some r.status := by
              have h0 := gi
              rw [List.getLast?_eq_getElem? _, hj] at h0
              simpa using h0
            rw [hk1, List.getElem?_take] at h1
            split at h1
            · exact h1
            · cases h1
          have hgetσ : (taskStatusScript env)[j + 1]? = some σ := by
            rw [← hj]
            have h1 : (statusSeq t (tr.take (i + 1)))[(statusSeq t (tr.take i)).length]? =
                some σ := by
              rw [hseq1]
              exact List.getElem?_concat_length _ _
            rw [hk2, List.getElem?_take] at h1
            split at h1
            · exact h1
            · cases h1
          have hstep : stepOK r.status σ :=
            chain_adjacent (taskStatusScript env) (chain_script env) j
              r.status σ hgetr hgetσ
          constructor
          · rw [hr2]
            exact hstep.1
          · intro hterm
            rw [hstep.2] at hterm
            cases hterm

/-- A concrete three-step trace: create, one progress write, completed. -/
def trW : List SysOp :=
  [.submitCreate "t", .workerProgress "t" 40, .workerCompleted "t" "tmp/t.csv"]

/-- The run generating `trW`'s worker writes. -/
def envW : WorkerEnv := ⟨.ok [], [40], .ok [], .ok "tmp/t.csv"⟩

/-- Helper: `trW` is a valid trace. -/
lemma trW_valid : validTrace trW := by
  intro t
  by_cases ht : t = "t"
  · subst ht
    exact ⟨envW, 3, rfl⟩
  · refine ⟨envW, 0, ?_⟩
    simp [statusSeq, trW, List.filterMap_cons, opStatusWrite, Ne.symm ht]

/-- Witness for C4 on the step of `trW` from `pending` to `processing`. -/
theorem C4_status_monotone_witness :
    statusRank pendingRecord.status ≤
        statusRank (TaskRecord.mk .processing (some 40) none none).status ∧
      (isTerminal pendingRecord.status = true →
        (TaskRecord.mk .processing (some 40) none none).status =
          pendingRecord.status) :=
  C4_status_monotone trW trW_valid "t" 1 pendingRecord
    ⟨.processing, some 40, none, none⟩ 1800 1800 rfl rfl

/-- A worker run whose first step (the sitemap fetch) fails. -/
def envFetchFail : WorkerEnv := ⟨.error "fetch failed", [], .ok [], .ok "tmp/t.csv"⟩

/-- A worker run whose second step (URL processing) fails. -/
def envProcFail : WorkerEnv :=
  ⟨.ok ["https://e.com/"], [10], .error "proc failed", .ok "tmp/t.csv"⟩

/-- C8: evaluating the worker at runs that fail in step 1 or step 2 shows
the `finally` cleanup itself raising `UnboundLocalError` (the `del`
targets were never bound), while a fully successful run cleans up fine. -/
theorem C8_cleanup_raises_on_early_failure :
    (process_task envFetchFail "t" initSys).threadResult =
        .error "UnboundLocalError: urls" ∧
    (process_task envProcFail "t" initSys).threadResult =
        .error "UnboundLocalError: results" ∧
    (process_task envAllOk "t" initSys).threadResult = .ok () :=
  ⟨rfl, rfl, rfl⟩

end SEO
